import Mathlib

/-!
Verification of the afkj-data-extractor screen-scraping pipeline.

The field parsers (`parse.py`), the scroll collector and the navigation
loops (`navigate.py`) are embedded shallowly: OCR outcomes, captured
frames, clock readings and window lookups become explicit oracles, and
every loop is written with explicit fuel.  Real-valued scores, times and
thresholds are modelled as rationals.
-/

namespace AFKJ

/-- Error taxonomy of `exceptions.py`: `OCRConfidenceError(field, raw_text)`
(recognition unreliable) and `ParseError(field, value, reason)` (value
outside the domain grammar or range). Payloads are reduced to the string
fields the claims mention. -/
inductive PErr where
  | ocrConfidence (field : String) (raw : String)
  | parseError (field : String) (value : String) (reason : String)
  deriving Repr, DecidableEq

/-- `true` exactly on an `OCRConfidenceError` outcome. -/
def isOCRErr {α : Type} : Except PErr α → Bool
  | Except.error (PErr.ocrConfidence _ _) => true
  | _ => false

/-- `true` exactly on a `ParseError` outcome. -/
def isParseErr {α : Type} : Except PErr α → Bool
  | Except.error (PErr.parseError _ _ _) => true
  | _ => false

/-- Modelled from the spec (§4.7; `parse.py` bodies are unimplemented
stubs): the shared digit-correction pass mapping commonly-confused glyphs
to digits, letter `O` to `0` and letters `l`/`I` to `1`. -/
def correctChar (c : Char) : Char :=
  if c = 'O' then '0'
  else if c = 'l' then '1'
  else if c = 'I' then '1'
  else c

/-- Digit correction applied to a whole string. -/
def correctDigits (s : String) : String :=
  String.mk (s.data.map correctChar)

/-- Decimal value of a digit list (most significant first). -/
def natOfDigits (l : List Char) : Nat :=
  l.foldl (fun n c => 10 * n + (c.toNat - 48)) 0

/-- Nonempty all-digit list parsed to a natural number, else `none`. -/
def digitsToNat (l : List Char) : Option Nat :=
  if l ≠ [] ∧ l.all Char.isDigit then some (natOfDigits l) else none

/-- Integer grammar accepted by the parsers: an optional sign followed by
a nonempty run of decimal digits. Returns `none` on anything else. -/
def strToInt (s : String) : Option Int :=
  match s.data with
  | [] => none
  | c :: cs =>
    if c = '-' then (digitsToNat cs).map (fun n => -(n : Int))
    else if c = '+' then (digitsToNat cs).map (fun n => (n : Int))
    else (digitsToNat (c :: cs)).map (fun n => (n : Int))

/-- Activity valid range (inclusive), `config.py`. -/
def ACTIVITY_MIN : Int := 0

/-- Activity valid range (inclusive), `config.py`. -/
def ACTIVITY_MAX : Int := 1080

/-- Modelled from the spec (§4.7; the body of `parse.py:parse_activity` is
an unimplemented stub): apply digit correction, cast to int, require the
value to lie in `[0, 1080]` inclusive; a non-numeric corrected string is a
recognition defect (`OCRConfidenceError`), an out-of-range integer is a
domain violation (`ParseError`). -/
def parse_activity (raw_text : String) : Except PErr Int :=
  let corrected := correctDigits raw_text
  match strToInt corrected with
  | none => Except.error (PErr.ocrConfidence "activity" raw_text)
  | some n =>
    if ACTIVITY_MIN ≤ n ∧ n ≤ ACTIVITY_MAX then Except.ok n
    else Except.error (PErr.parseError "activity" corrected "outside 0-1080")

/-- Modelled from the spec (§4.7; the body of `parse.py:parse_rank` is an
unimplemented stub): apply the shared digit correction and cast to int;
a non-numeric corrected string or a non-positive result fails with
`ParseError`. -/
def parse_rank (raw_text : String) : Except PErr Int :=
  let corrected := correctDigits raw_text
  match strToInt corrected with
  | none => Except.error (PErr.parseError "rank" corrected "not numeric")
  | some n =>
    if 0 < n then Except.ok n
    else Except.error (PErr.parseError "rank" corrected "not positive")

/-- Strip an expected leading character sequence; `none` when the list
does not start with it. -/
def dropLead : List Char → List Char → Option (List Char)
  | [], l => some l
  | _ :: _, [] => none
  | p :: ps, c :: cs => if p = c then dropLead ps cs else none

/-- Minimum number of cleared-colour pixels to classify a card as Cleared
(`config.py:CLEARED_PIXEL_THRESHOLD`). -/
def CLEARED_PIXEL_THRESHOLD : Nat := 50

/-- Sentinel stage token for a Cleared card (`parse.py` docstring). -/
def CLEARED_TOKEN : String := "A1000"

/-- Textual grammar of pass 2 of stage parsing: `"Stage N"` maps to the
normal-family token `"S{N}"`, `"Apex N"` to the elevated-family token
`"A{N}"`, and any other text fails with a `ParseError` naming the
unmatched string. -/
def stageText (t : String) : Except PErr String :=
  match dropLead "Stage ".data t.data with
  | some rest =>
    match digitsToNat rest with
    | some _ => Except.ok (String.mk ('S' :: rest))
    | none => Except.error (PErr.parseError "stage" t "unmatched stage text")
  | none =>
    match dropLead "Apex ".data t.data with
    | some rest =>
      match digitsToNat rest with
      | some _ => Except.ok (String.mk ('A' :: rest))
      | none => Except.error (PErr.parseError "stage" t "unmatched stage text")
    | none => Except.error (PErr.parseError "stage" t "unmatched stage text")

/-- Modelled from the spec (§4.7; the body of `parse.py:parse_at_stage` is
an unimplemented stub): two-pass stage parsing.  `clearedCount` is the
number of pixels of the card region inside the fixed cleared-indicator HSV
band, and `ocr` is the outcome the OCR engine would produce were it
invoked.  Pass 1 short-circuits to the maximal sentinel token whenever the
pixel count exceeds the minimum, without consulting `ocr`; pass 2 OCRs the
region and applies the two textual grammars. -/
def parse_at_stage (clearedCount : Nat) (minPixels : Nat)
    (ocr : Except PErr String) : Except PErr String :=
  if minPixels < clearedCount then Except.ok CLEARED_TOKEN
  else
    match ocr with
    | Except.error e => Except.error e
    | Except.ok t => stageText t

/-- Detection failure: zero card clusters on an already-stable frame
(`DetectionError` in the spec taxonomy; `RuntimeError` in the
`detect_cards` docstring). -/
inductive DetectErr where
  | noCards
  deriving Repr, DecidableEq

/-- Single-link clustering step modelled from the spec (§4.5): `firstM` is
the first member of the current cluster and `acc` its members so far (in
reverse); a coordinate joins the current cluster exactly when its gap to
the cluster's first member is smaller than the card template's height
`h`. -/
def clusterAux (h : Nat) (firstM : Nat) (acc : List Nat) :
    List Nat → List (List Nat)
  | [] => [acc.reverse]
  | y :: ys =>
    if y - firstM < h then clusterAux h firstM (y :: acc) ys
    else acc.reverse :: clusterAux h y [y] ys

/-- Cluster a sorted list of unique vertical coordinates. -/
def clusterYs (h : Nat) : List Nat → List (List Nat)
  | [] => []
  | y :: ys => clusterAux h y [y] ys

/-- Mean of a coordinate cluster, rounded to the nearest integer. -/
def meanRound (c : List Nat) : Nat :=
  (2 * c.foldl (· + ·) 0 + c.length) / (2 * c.length)

/-- Insert a coordinate into a sorted list, keeping it sorted. -/
def insertSorted (y : Nat) : List Nat → List Nat
  | [] => [y]
  | x :: xs => if y ≤ x then y :: x :: xs else x :: insertSorted y xs

/-- Insertion sort of the raw vertical match coordinates. -/
def sortYs (l : List Nat) : List Nat := l.foldr insertSorted []

/-- Modelled from the spec (§4.5; the body of `parse.py:detect_cards` is
an unimplemented stub): sort the unique vertical match coordinates, merge
them single-link into clusters by the card-template height `h`, and return
each cluster's rounded mean in ascending order; zero clusters on a stable
frame is an anomaly reported as `DetectionError`, never an empty list. -/
def detect_cards (ys : List Nat) (h : Nat) : Except DetectErr (List Nat) :=
  let uniq := (sortYs ys).dedup
  match clusterYs h uniq with
  | [] => Except.error DetectErr.noCards
  | cs => Except.ok (cs.map meanRound)

/-- Client-area geometry returned by `capture.py:find_game_window`:
screen position of the client origin plus its fixed size. -/
structure WinGeometry where
  left : Int
  top : Int
  width : Int
  height : Int
  deriving Repr, DecidableEq

/-- A pointer action issued through `pyautogui`, at absolute screen
coordinates. -/
inductive PtrAction where
  | clickAt (x y : Int)
  | moveTo (x y : Int)
  deriving Repr, DecidableEq

/-- Embedding of `navigate.py:game_click`: `lookups t` is the geometry the
`t`-th call to `find_game_window()` returns (the window may move between
calls).  The function performs one fresh lookup, clicks at
`(x + left, y + top)` of that lookup's geometry, and advances the lookup
counter. -/
def game_click (lookups : Nat → WinGeometry) (t : Nat) (x y : Int) :
    PtrAction × Nat :=
  let geometry := lookups t
  (PtrAction.clickAt (x + geometry.left) (y + geometry.top), t + 1)

/-- Embedding of `navigate.py:game_move_to`: same window-relative policy
as `game_click`, issuing a pointer move. -/
def game_move_to (lookups : Nat → WinGeometry) (t : Nat) (x y : Int) :
    PtrAction × Nat :=
  let geometry := lookups t
  (PtrAction.moveTo (x + geometry.left) (y + geometry.top), t + 1)

/-- The two timeouts `navigate_home` uses for its `wait_for_screen`
calls: the short per-attempt `NAV_HOME_CHECK_TIMEOUT` inside the loop,
and the long default timeout of the final confirmation attempt. -/
inductive TKind where
  | attemptT
  | finalT
  deriving Repr, DecidableEq

/-- Observable events of a `navigate_home` run: a World-screen template
check (with its timeout kind and outcome) or a back-button click. -/
inductive NavEvent where
  | check (k : TKind) (ok : Bool)
  | clickBack
  deriving Repr, DecidableEq

/-- Loop of `navigate.py:navigate_home`, embedded over a check oracle:
`f i` tells whether the `i`-th `wait_for_screen` call confirms the World
screen within its timeout.  With attempts remaining, a successful short
check returns at once; a failed short check is followed by one back click
and the next attempt.  With no attempts left, one final check with the
long default timeout decides the outcome (`false` = `TimeoutError`). -/
def navHomeLoop (f : Nat → Bool) (i : Nat) : Nat → List NavEvent × Bool
  | 0 => ([NavEvent.check TKind.finalT (f i)], f i)
  | n + 1 =>
    if f i then ([NavEvent.check TKind.attemptT true], true)
    else
      let r := navHomeLoop f (i + 1) n
      (NavEvent.check TKind.attemptT false :: NavEvent.clickBack :: r.1, r.2)

/-- Embedding of `navigate.py:navigate_home`: up to `maxClicks` loop
attempts (`NAV_HOME_MAX_CLICKS`), then the final long-timeout check.
Returns the event trace and whether the run succeeded. -/
def navigate_home (maxClicks : Nat) (f : Nat → Bool) :
    List NavEvent × Bool :=
  navHomeLoop f 0 maxClicks

/-- `true` exactly on the back-click event. -/
def isClick : NavEvent → Bool
  | NavEvent.clickBack => true
  | _ => false

/-- Number of back clicks in a trace. -/
def countClicks (l : List NavEvent) : Nat := l.countP isClick

/-- Number of long-timeout checks in a trace. -/
def countFinalChecks (l : List NavEvent) : Nat :=
  l.countP fun e =>
    match e with
    | NavEvent.check TKind.finalT _ => true
    | _ => false

/-- Claim predicate: every back click in the trace is immediately
followed by a short per-attempt-timeout check. -/
def clicksFollowedByShort : List NavEvent → Bool
  | [] => true
  | NavEvent.clickBack :: rest =>
    (match rest with
     | NavEvent.check TKind.attemptT _ :: _ => true
     | _ => false) && clicksFollowedByShort rest
  | _ :: rest => clicksFollowedByShort rest

/-- Auxiliary scan carrying the previous event. -/
def clicksAfterFailAux (prev : Option NavEvent) : List NavEvent → Bool
  | [] => true
  | e :: rest =>
    (match e, prev with
     | NavEvent.clickBack, some (NavEvent.check TKind.attemptT false) => true
     | NavEvent.clickBack, _ => false
     | _, _ => true) && clicksAfterFailAux (some e) rest

/-- Every back click in the trace is immediately preceded by a failed
short per-attempt-timeout check. -/
def clicksAfterFailedShort (l : List NavEvent) : Bool :=
  clicksAfterFailAux none l

/-- Observable events of a `wait_for_screen` poll loop: a window capture
(followed by one template match) or a fixed-interval sleep. -/
inductive ScreenEv where
  | capture
  | sleepFor (d : ℚ)
  deriving Repr, DecidableEq

/-- Outcome of a `wait_for_screen` run: `FileNotFoundError` at template
load, `TimeoutError` after `polls` unsuccessful polls, or success at poll
`poll`. -/
inductive WaitOutcome where
  | fileNotFound
  | timeoutAt (polls : Nat)
  | matched (poll : Nat)
  deriving Repr, DecidableEq

/-- Poll loop of `navigate.py:wait_for_screen`, embedded over oracles:
`clock j` is the `j`-th `time.time()` reading (reading `0` is `start`),
`score k` the `cv2.matchTemplate(...).max()` of the `k`-th capture.  Each
iteration re-reads the clock, exits with `TimeoutError` once
`timeout` has elapsed, otherwise captures once and either succeeds
(score at least `confidence`) or sleeps the fixed interval `ival`
(`POLL_INTERVAL`) and retries.  Fuel bounds the unrolling; `none` means
the run was not decided within `fuel` iterations. -/
def waitLoop (clock score : Nat → ℚ) (timeout confidence ival : ℚ)
    (k : Nat) : Nat → Option (WaitOutcome × List ScreenEv)
  | 0 => none
  | fuel + 1 =>
    if clock (k + 1) - clock 0 < timeout then
      if confidence ≤ score k then some (WaitOutcome.matched k, [ScreenEv.capture])
      else
        match waitLoop clock score timeout confidence ival (k + 1) fuel with
        | none => none
        | some (r, tr) =>
          some (r, ScreenEv.capture :: ScreenEv.sleepFor ival :: tr)
    else some (WaitOutcome.timeoutAt k, [])

/-- Embedding of `navigate.py:wait_for_screen`: the template is loaded
before any capture (`templateLoaded = false` gives `FileNotFoundError`
with an empty event trace), then the poll loop runs. -/
def wait_for_screen (templateLoaded : Bool) (clock score : Nat → ℚ)
    (timeout confidence ival : ℚ) (fuel : Nat) :
    Option (WaitOutcome × List ScreenEv) :=
  if templateLoaded then waitLoop clock score timeout confidence ival 0 fuel
  else some (WaitOutcome.fileNotFound, [])

/-- The expected event trace of a `wait_for_screen` run with `k` failed
polls before the final event: every failed poll is one capture followed
by one fixed-interval sleep. -/
def pollTrail (ival : ℚ) : Nat → List ScreenEv
  | 0 => []
  | k + 1 => ScreenEv.capture :: ScreenEv.sleepFor ival :: pollTrail ival k

/-- A captured frame, as its list of pixel values (`cv2` arrays are
flattened row-major; only elementwise difference and mean are used). -/
def Frame : Type := List Int

/-- Sum of elementwise absolute differences (`cv2.absdiff` summed). -/
def sumAbsDiff (a b : Frame) : Nat :=
  (a.zip b).foldl (fun s p => s + (p.1 - p.2).natAbs) 0

/-- Mean absolute pixel difference: `cv2.absdiff(prev, curr).mean()`. -/
def meanAbsDiff (a b : Frame) : ℚ :=
  (sumAbsDiff a b : ℚ) / (List.length a : ℚ)

/-- Outcome of a `wait_for_stability` run: `TimeoutError` after `polls`
unstable polls, or the stable frame captured at index `idx`. -/
inductive StabOutcome where
  | timeoutAt (polls : Nat)
  | stable (idx : Nat) (frame : Frame)

/-- Poll loop of `navigate.py:wait_for_stability`, embedded over oracles:
`clock j` is the `j`-th `time.time()` reading (reading `0` is `start`),
`frames j` the `j`-th `capture_window()` frame (frame `0` is the initial
`prev`).  Each iteration re-reads the clock, exits with `TimeoutError`
once `timeout` has elapsed, otherwise sleeps, captures the next frame and
returns it when its mean absolute difference against the previous frame
is below the threshold, else makes it the new `prev`. -/
def stabLoop (clock : Nat → ℚ) (frames : Nat → Frame) (timeout thr : ℚ)
    (p : Nat) : Nat → Option StabOutcome
  | 0 => none
  | fuel + 1 =>
    if clock (p + 1) - clock 0 < timeout then
      if meanAbsDiff (frames p) (frames (p + 1)) < thr then
        some (StabOutcome.stable (p + 1) (frames (p + 1)))
      else stabLoop clock frames timeout thr (p + 1) fuel
    else some (StabOutcome.timeoutAt p)

/-- Embedding of `navigate.py:wait_for_stability`: capture the initial
frame, then poll until two consecutive frames are nearly identical. -/
def wait_for_stability (clock : Nat → ℚ) (frames : Nat → Frame)
    (timeout thr : ℚ) (fuel : Nat) : Option StabOutcome :=
  stabLoop clock frames timeout thr 0 fuel

/-- Best-scoring roster entry for a recognized name, under an abstract
similarity `score`; ties prefer the earlier roster entry. -/
def bestOf (score : String → String → ℚ) (ocrName : String) :
    List String → Option (String × ℚ)
  | [] => none
  | m :: ms =>
    let cur : String × ℚ := (m, score ocrName m)
    match bestOf score ocrName ms with
    | none => some cur
    | some (bm, bs) => if cur.2 < bs then some (bm, bs) else some cur

/-- Modelled from the spec (§4.8; the body of
`parse.py:match_player_name` is an unimplemented stub): return the
highest-scoring roster entry only if its similarity reaches the fixed
threshold, else the domain-valid "no match". -/
def match_player_name (score : String → String → ℚ) (thr : ℚ)
    (ocrName : String) (members : List String) : Option String :=
  match bestOf score ocrName members with
  | none => none
  | some (bm, bs) => if thr ≤ bs then some bm else none

/-- One detected card, after field extraction and typed parsing: the
extraction may fail the confidence gate, the parser may reject the text,
or the card yields a recognized raw name and a parsed value. -/
inductive CardRead (V : Type) where
  | ocrFail
  | parseFail
  | parsed (rawName : String) (v : V)

/-- Lookup in the running result map (an association list keyed by
canonical name). -/
def lookupV {V : Type} (name : String) : List (String × V) → Option V
  | [] => none
  | (k, v) :: rest => if k = name then some v else lookupV name rest

/-- Running state of one collection step: the result map, the diagnostic
skip counter, and the number of previously-unseen names this step
contributed. -/
structure CollectSt (V : Type) where
  result : List (String × V)
  skipped : Nat
  newInStep : Nat
  deriving DecidableEq

/-- Modelled from the spec (§4.9; the body of
`navigate.py:scroll_and_collect` is an unimplemented stub): process one
card.  A card that failed extraction or parsing, or whose name matches no
roster entry, is skipped and counted; a resolved name merges
first-occurrence-wins — a name already present is never overwritten. -/
def processCard {V : Type} (score : String → String → ℚ) (thr : ℚ)
    (members : List String) (st : CollectSt V) : CardRead V → CollectSt V
  | CardRead.ocrFail => { st with skipped := st.skipped + 1 }
  | CardRead.parseFail => { st with skipped := st.skipped + 1 }
  | CardRead.parsed raw v =>
    match match_player_name score thr raw members with
    | none => { st with skipped := st.skipped + 1 }
    | some name =>
      match lookupV name st.result with
      | some _ => st
      | none =>
        { st with
          result := st.result ++ [(name, v)]
          newInStep := st.newInStep + 1 }

/-- Process the cards detected after one scroll step, starting a fresh
new-names counter. -/
def processStep {V : Type} (score : String → String → ℚ) (thr : ℚ)
    (members : List String) (res : List (String × V)) (sk : Nat)
    (cards : List (CardRead V)) : CollectSt V :=
  cards.foldl (processCard score thr members) ⟨res, sk, 0⟩

/-- An unrecoverable per-step failure: frames never stabilized or zero
cards were detected on a stable frame.  These abort the mode. -/
inductive StepErr where
  | stabilityTimeout
  | detectionFail
  deriving Repr, DecidableEq

/-- Modelled from the spec (§4.9): the scroll loop.  `steps i` is the
outcome of stabilize-and-detect after the `i`-th scroll position: an
unrecoverable failure or the processed cards visible there.  The loop
terminates when the result reaches roster size, when a step contributes
zero previously-unseen names, or when the step cap (the fuel) is
exhausted. -/
def collectLoop {V : Type} (score : String → String → ℚ) (thr : ℚ)
    (members : List String)
    (steps : Nat → Except StepErr (List (CardRead V)))
    (res : List (String × V)) (sk : Nat) (i : Nat) :
    Nat → Except StepErr (List (String × V) × Nat)
  | 0 => Except.ok (res, sk)
  | fuel + 1 =>
    match steps i with
    | Except.error e => Except.error e
    | Except.ok cards =>
      let st := processStep score thr members res sk cards
      if st.result.length = members.length then Except.ok (st.result, st.skipped)
      else if st.newInStep = 0 then Except.ok (st.result, st.skipped)
      else collectLoop score thr members steps st.result st.skipped (i + 1) fuel

/-- Modelled from the spec (§4.9; the body of
`navigate.py:scroll_and_collect` is an unimplemented stub): run the
scroll loop from an empty result with the configured step cap, returning
the mapping from canonical roster name to parsed value together with the
diagnostic skip count. -/
def scroll_and_collect {V : Type} (score : String → String → ℚ) (thr : ℚ)
    (members : List String)
    (steps : Nat → Except StepErr (List (CardRead V)))
    (stepCap : Nat) : Except StepErr (List (String × V) × Nat) :=
  collectLoop score thr members steps [] 0 0 stepCap

/-- A card is malformed or unmatched when its field failed extraction or
parsing, or its recognized name resolves to no roster entry. -/
def badCard {V : Type} (score : String → String → ℚ) (thr : ℚ)
    (members : List String) : CardRead V → Bool
  | CardRead.ocrFail => true
  | CardRead.parseFail => true
  | CardRead.parsed raw _ =>
    (match_player_name score thr raw members).isNone

/-- The result-map invariant: keys are pairwise distinct canonical roster
names. -/
def goodRes {V : Type} (members : List String)
    (res : List (String × V)) : Prop :=
  (res.map Prod.fst).Nodup ∧ ∀ k ∈ res.map Prod.fst, k ∈ members

/-- Add `d` to the diagnostic skip counter of a collection state. -/
def shiftSkip {V : Type} (d : Nat) (st : CollectSt V) : CollectSt V :=
  { st with skipped := st.skipped + d }

/-- Equality of `Except` values is decidable when both components are. -/
instance {ε α : Type} [DecidableEq ε] [DecidableEq α] :
    DecidableEq (Except ε α) := fun a b =>
  match a, b with
  | Except.ok x, Except.ok y =>
    if h : x = y then isTrue (by rw [h])
    else isFalse (fun hc => h (Except.ok.inj hc))
  | Except.error x, Except.error y =>
    if h : x = y then isTrue (by rw [h])
    else isFalse (fun hc => h (Except.error.inj hc))
  | Except.ok _, Except.error _ => isFalse (fun hc => Except.noConfusion hc)
  | Except.error _, Except.ok _ => isFalse (fun hc => Except.noConfusion hc)

/-! ## Theorems -/

/-- C6: `parse_activity` maps confusable glyphs to digits before casting,
so `parse_activity "5OO" = 500`; every corrected string that is an
integer outside `[0, 1080]` inclusive fails with `ParseError`; every
corrected string that is not an integer fails with `OCRConfidence`, not
`ParseError`. -/
theorem parse_activity_spec :
    parse_activity "5OO" = Except.ok 500 ∧
    (∀ s n, strToInt (correctDigits s) = some n →
      n < ACTIVITY_MIN ∨ ACTIVITY_MAX < n →
      isParseErr (parse_activity s) = true ∧ isOCRErr (parse_activity s) = false) ∧
    (∀ s, strToInt (correctDigits s) = none →
      isOCRErr (parse_activity s) = true ∧ isParseErr (parse_activity s) = false) := by
  refine ⟨rfl, ?_, ?_⟩
  · intro s n h hout
    have hcond : ¬ (ACTIVITY_MIN ≤ n ∧ n ≤ ACTIVITY_MAX) := by
      simp only [ACTIVITY_MIN, ACTIVITY_MAX] at hout ⊢
      omega
    simp [parse_activity, h, hcond, isParseErr, isOCRErr]
  · intro s h
    simp [parse_activity, h, isParseErr, isOCRErr]

/-- Witness for C6: the documented inputs `"1081"`, `"-1"` (in range as
integers but out of `[0, 1080]`) and a non-numeric string. -/
theorem parse_activity_spec_witness :
    (isParseErr (parse_activity "1081") = true ∧
      isOCRErr (parse_activity "1081") = false) ∧
    (isParseErr (parse_activity "-1") = true ∧
      isOCRErr (parse_activity "-1") = false) ∧
    (isOCRErr (parse_activity "xyz") = true ∧
      isParseErr (parse_activity "xyz") = false) :=
  ⟨parse_activity_spec.2.1 "1081" 1081 rfl (by decide),
   parse_activity_spec.2.1 "-1" (-1) rfl (by decide),
   parse_activity_spec.2.2 "xyz" rfl⟩

/-- C7: `parse_rank` applies the shared digit correction and returns a
positive integer, so `parse_rank "l2" = 12`; a non-numeric corrected
string or a non-positive result fails with `ParseError`. -/
theorem parse_rank_spec :
    parse_rank "l2" = Except.ok 12 ∧
    (∀ s, strToInt (correctDigits s) = none →
      isParseErr (parse_rank s) = true) ∧
    (∀ s n, strToInt (correctDigits s) = some n → n ≤ 0 →
      isParseErr (parse_rank s) = true) ∧
    (∀ s n, strToInt (correctDigits s) = some n → 0 < n →
      parse_rank s = Except.ok n) := by
  refine ⟨rfl, ?_, ?_, ?_⟩
  · intro s h
    simp [parse_rank, h, isParseErr]
  · intro s n h hnp
    have hcond : ¬ (0 < n) := by omega
    simp [parse_rank, h, hcond, isParseErr]
  · intro s n h hp
    simp [parse_rank, h, hp]

/-- Witness for C7: the documented inputs `"l2"` and `"0"`, plus a
non-numeric string. -/
theorem parse_rank_spec_witness :
    isParseErr (parse_rank "abc") = true ∧
    isParseErr (parse_rank "0") = true ∧
    parse_rank "17" = Except.ok 17 :=
  ⟨parse_rank_spec.2.1 "abc" rfl,
   parse_rank_spec.2.2.1 "0" 0 rfl (by decide),
   parse_rank_spec.2.2.2 "17" 17 rfl (by decide)⟩

/-- C8: `parse_at_stage` is two-pass: a cleared-pixel count exceeding the
minimum short-circuits to the maximal sentinel token for every possible
OCR outcome (OCR is never consulted); otherwise `"Stage N"` yields the
normal-family token, `"Apex N"` the elevated-family token, and any other
text fails with `ParseError` naming the unmatched string. -/
theorem parse_at_stage_spec :
    (∀ cnt minP ocr, minP < cnt →
      parse_at_stage cnt minP ocr = Except.ok CLEARED_TOKEN) ∧
    (∀ cnt minP, cnt ≤ minP →
      parse_at_stage cnt minP (Except.ok "Stage 42") = Except.ok "S42") ∧
    (∀ cnt minP, cnt ≤ minP →
      parse_at_stage cnt minP (Except.ok "Apex 7") = Except.ok "A7") ∧
    (∀ cnt minP, cnt ≤ minP →
      parse_at_stage cnt minP (Except.ok "garbage") =
        Except.error (PErr.parseError "stage" "garbage" "unmatched stage text")) := by
  refine ⟨?_, ?_, ?_, ?_⟩
  · intro cnt minP ocr hlt
    simp [parse_at_stage, hlt]
  · intro cnt minP hle
    rw [parse_at_stage, if_neg (Nat.not_lt.mpr hle)]
    rfl
  · intro cnt minP hle
    rw [parse_at_stage, if_neg (Nat.not_lt.mpr hle)]
    rfl
  · intro cnt minP hle
    rw [parse_at_stage, if_neg (Nat.not_lt.mpr hle)]
    rfl

/-- Witness for C8: a cleared count above the configured minimum (with a
failing OCR outcome, showing OCR is not consulted), and the three
documented pass-2 texts below it. -/
theorem parse_at_stage_spec_witness :
    parse_at_stage 51 CLEARED_PIXEL_THRESHOLD
      (Except.error (PErr.ocrConfidence "stage" "")) = Except.ok "A1000" ∧
    parse_at_stage 0 CLEARED_PIXEL_THRESHOLD (Except.ok "Stage 42") =
      Except.ok "S42" ∧
    parse_at_stage 0 CLEARED_PIXEL_THRESHOLD (Except.ok "Apex 7") =
      Except.ok "A7" ∧
    parse_at_stage 0 CLEARED_PIXEL_THRESHOLD (Except.ok "garbage") =
      Except.error (PErr.parseError "stage" "garbage" "unmatched stage text") :=
  ⟨parse_at_stage_spec.1 51 CLEARED_PIXEL_THRESHOLD _ (by decide),
   parse_at_stage_spec.2.1 0 CLEARED_PIXEL_THRESHOLD (by decide),
   parse_at_stage_spec.2.2.1 0 CLEARED_PIXEL_THRESHOLD (by decide),
   parse_at_stage_spec.2.2.2 0 CLEARED_PIXEL_THRESHOLD (by decide)⟩

/-- C9: `detect_cards` clusters sorted unique coordinates single-link by
the template height: the raw coordinates `[10, 12, 15, 200, 205]` with
template height `30` yield exactly two clustered positions; zero clusters
fail with `DetectionError` rather than returning an empty list, and a
successful result is never the empty list. -/
theorem detect_cards_spec :
    detect_cards [10, 12, 15, 200, 205] 30 = Except.ok [12, 203] ∧
    (∀ h, detect_cards [] h = Except.error DetectErr.noCards) ∧
    (∀ ys h l, detect_cards ys h = Except.ok l → l ≠ []) := by
  refine ⟨rfl, fun h => rfl, ?_⟩
  intro ys h l hok
  unfold detect_cards at hok
  revert hok
  cases hc : clusterYs h (sortYs ys).dedup with
  | nil => simp [hc]
  | cons c cs =>
    simp only [hc]
    intro hok
    cases hok
    simp

/-- C10: `game_click` and `game_move_to` treat their coordinates as
window-relative: each call performs a fresh `find_game_window` lookup and
issues its pointer action at exactly `(x + left, y + top)` of the
geometry that lookup returned; coordinates are never interpreted as
screen-absolute, and consecutive calls each use their own lookup. -/
theorem game_click_window_relative :
    (∀ lookups t x y,
      game_click lookups t x y =
        (PtrAction.clickAt (x + (lookups t).left) (y + (lookups t).top), t + 1)) ∧
    (∀ lookups t x y,
      game_move_to lookups t x y =
        (PtrAction.moveTo (x + (lookups t).left) (y + (lookups t).top), t + 1)) ∧
    (∀ lookups t x y, (lookups t).left ≠ 0 →
      (game_click lookups t x y).1 ≠ PtrAction.clickAt x y) ∧
    (∀ lookups t x1 y1 x2 y2,
      (game_click lookups (game_click lookups t x1 y1).2 x2 y2).1 =
        PtrAction.clickAt (x2 + (lookups (t + 1)).left)
          (y2 + (lookups (t + 1)).top)) := by
  refine ⟨fun _ _ _ _ => rfl, fun _ _ _ _ => rfl, ?_, fun _ _ _ _ _ _ => rfl⟩
  intro lookups t x y hleft hc
  simp only [game_click, PtrAction.clickAt.injEq] at hc
  omega

/-- Witness for C10: a window whose client origin is not the screen
origin, where the click visibly lands offset. -/
theorem game_click_window_relative_witness :
    (game_click (fun _ => WinGeometry.mk 5 7 1920 1080) 0 3 4).1 ≠
      PtrAction.clickAt 3 4 :=
  game_click_window_relative.2.2.1 (fun _ => WinGeometry.mk 5 7 1920 1080)
    0 3 4 (by decide)

/-- Back-click count of a `navHomeLoop` trace is bounded by the remaining
attempts. -/
theorem navHomeLoop_clicks_le (f : Nat → Bool) :
    ∀ n i, countClicks (navHomeLoop f i n).1 ≤ n := by
  intro n
  induction n with
  | zero =>
    intro i
    simp [navHomeLoop, countClicks, isClick]
  | succ n ih =>
    intro i
    by_cases hf : f i = true
    · simp [navHomeLoop, hf, countClicks, List.countP_cons, isClick]
    · simp only [navHomeLoop, hf, if_neg, Bool.false_eq_true, if_false]
      have := ih (i + 1)
      simp [countClicks, List.countP_cons, isClick] at *
      omega

/-- In a `navHomeLoop` trace every back click immediately follows a
failed short-timeout check. -/
theorem navHomeLoop_clicks_after_fail (f : Nat → Bool) :
    ∀ n i prev, clicksAfterFailAux prev (navHomeLoop f i n).1 = true := by
  intro n
  induction n with
  | zero =>
    intro i prev
    simp [navHomeLoop, clicksAfterFailAux]
  | succ n ih =>
    intro i prev
    by_cases hf : f i = true
    · simp [navHomeLoop, hf, clicksAfterFailAux]
    · simp only [navHomeLoop, hf, Bool.false_eq_true, if_false]
      simpa [clicksAfterFailAux] using ih (i + 1) (some NavEvent.clickBack)

/-- Exhaustion run of `navHomeLoop`: when every short check fails, the
trace holds exactly one long-timeout check and one back click per
attempt, and the outcome is the final check's. -/
theorem navHomeLoop_exhaust (f : Nat → Bool) :
    ∀ n i, (∀ j, j < n → f (i + j) = false) →
      countFinalChecks (navHomeLoop f i n).1 = 1 ∧
      countClicks (navHomeLoop f i n).1 = n ∧
      (navHomeLoop f i n).2 = f (i + n) := by
  intro n
  induction n with
  | zero =>
    intro i _
    simp [navHomeLoop, countFinalChecks, countClicks, isClick]
  | succ n ih =>
    intro i h
    have hf : f i = false := by simpa using h 0 (Nat.succ_pos n)
    have hrec := ih (i + 1) (fun j hj => by
      have hx := h (j + 1) (by omega)
      have harith : i + (j + 1) = i + 1 + j := by omega
      rwa [harith] at hx)
    have harith2 : i + 1 + n = i + (n + 1) := by omega
    rw [harith2] at hrec
    simp only [navHomeLoop, hf, Bool.false_eq_true, if_false]
    simp [countFinalChecks, countClicks, List.countP_cons, isClick] at *
    refine ⟨hrec.1, by omega, hrec.2.2⟩

/-- C3 (amended): `navigate_home` issues zero back actions and succeeds
when the World screen confirms on its initial check; it issues at most
the configured maximum number of back actions, each immediately after a
failed short-per-attempt-timeout check for the World screen; and when
every short check fails it makes exactly one final long-timeout
confirmation attempt (directly after the last back action) whose failure
propagates as Timeout. -/
theorem navigate_home_policy :
    (∀ n f, f 0 = true →
      countClicks (navigate_home n f).1 = 0 ∧ (navigate_home n f).2 = true) ∧
    (∀ n f, countClicks (navigate_home n f).1 ≤ n) ∧
    (∀ n f, clicksAfterFailedShort (navigate_home n f).1 = true) ∧
    (∀ n f, (∀ i, i < n → f i = false) →
      countFinalChecks (navigate_home n f).1 = 1 ∧
      countClicks (navigate_home n f).1 = n ∧
      (navigate_home n f).2 = f n) := by
  refine ⟨?_, ?_, ?_, ?_⟩
  · intro n f h
    cases n with
    | zero => simp [navigate_home, navHomeLoop, h, countClicks, isClick]
    | succ n => simp [navigate_home, navHomeLoop, h, countClicks, isClick]
  · intro n f
    exact navHomeLoop_clicks_le f n 0
  · intro n f
    exact navHomeLoop_clicks_after_fail f n 0 none
  · intro n f h
    have := navHomeLoop_exhaust f n 0 (fun j hj => by simpa using h j hj)
    simpa [navigate_home] using this

/-- Witness for C3 (amended): a run that is already home (zero clicks),
and a three-attempt run where every check fails (three clicks, one final
long check, Timeout). -/
theorem navigate_home_policy_witness :
    (countClicks (navigate_home 3 (fun _ => true)).1 = 0 ∧
      (navigate_home 3 (fun _ => true)).2 = true) ∧
    (countFinalChecks (navigate_home 3 (fun _ => false)).1 = 1 ∧
      countClicks (navigate_home 3 (fun _ => false)).1 = 3 ∧
      (navigate_home 3 (fun _ => false)).2 = false) :=
  ⟨navigate_home_policy.1 3 (fun _ => true) rfl,
   navigate_home_policy.2.2.2 3 (fun _ => false) (fun _ _ => rfl)⟩

/-- C3 counterexample: in the exhaustion run the last back action is
followed by the final long-timeout confirmation, not by a
short-per-attempt-timeout check, so "each back action is followed by a
short-per-attempt-timeout check" fails as stated. -/
theorem navigate_home_counterexample :
    clicksFollowedByShort (navigate_home 3 (fun _ => false)).1 = false := by
  decide

/-- A successful `waitLoop` run matched the first sufficient poll, and
its trace is one capture per poll with a fixed-interval sleep after each
failed one. -/
theorem waitLoop_matched (clock score : Nat → ℚ) (timeout conf ival : ℚ) :
    ∀ fuel k0 k tr,
      waitLoop clock score timeout conf ival k0 fuel =
        some (WaitOutcome.matched k, tr) →
      k0 ≤ k ∧ conf ≤ score k ∧ (∀ j, k0 ≤ j → j < k → score j < conf) ∧
      tr = pollTrail ival (k - k0) ++ [ScreenEv.capture] := by
  intro fuel
  induction fuel with
  | zero =>
    intro k0 k tr h
    simp [waitLoop] at h
  | succ fuel ih =>
    intro k0 k tr h
    simp only [waitLoop] at h
    by_cases ht : clock (k0 + 1) - clock 0 < timeout
    · rw [if_pos ht] at h
      by_cases hs : conf ≤ score k0
      · rw [if_pos hs] at h
        simp only [Option.some.injEq, Prod.mk.injEq, WaitOutcome.matched.injEq] at h
        obtain ⟨hk, htr⟩ := h
        subst hk
        refine ⟨Nat.le_refl _, hs, fun j hj1 hj2 => absurd hj2 (by omega), ?_⟩
        rw [← htr, Nat.sub_self]
        rfl
      · rw [if_neg hs] at h
        cases hrec : waitLoop clock score timeout conf ival (k0 + 1) fuel with
        | none =>
          rw [hrec] at h
          simp at h
        | some rt =>
          rw [hrec] at h
          obtain ⟨r, trR⟩ := rt
          simp only [Option.some.injEq, Prod.mk.injEq] at h
          obtain ⟨hr, htr⟩ := h
          subst hr
          obtain ⟨hk0, hconf, hall, htrR⟩ := ih (k0 + 1) k trR hrec
          refine ⟨by omega, hconf, ?_, ?_⟩
          · intro j hj1 hj2
            rcases Nat.eq_or_lt_of_le hj1 with hje | hjl
            · rw [← hje]
              exact lt_of_not_le hs
            · exact hall j hjl hj2
          · rw [← htr, htrR]
            have hk : k - k0 = (k - (k0 + 1)) + 1 := by omega
            rw [hk]
            rfl
    · rw [if_neg ht] at h
      simp at h

/-- A timed-out `waitLoop` run saw the timeout elapse with no poll
reaching confidence, and slept the fixed interval after every poll. -/
theorem waitLoop_timeout (clock score : Nat → ℚ) (timeout conf ival : ℚ) :
    ∀ fuel k0 k tr,
      waitLoop clock score timeout conf ival k0 fuel =
        some (WaitOutcome.timeoutAt k, tr) →
      k0 ≤ k ∧ ¬ clock (k + 1) - clock 0 < timeout ∧
      (∀ j, k0 ≤ j → j < k → score j < conf) ∧
      tr = pollTrail ival (k - k0) := by
  intro fuel
  induction fuel with
  | zero =>
    intro k0 k tr h
    simp [waitLoop] at h
  | succ fuel ih =>
    intro k0 k tr h
    simp only [waitLoop] at h
    by_cases ht : clock (k0 + 1) - clock 0 < timeout
    · rw [if_pos ht] at h
      by_cases hs : conf ≤ score k0
      · rw [if_pos hs] at h
        simp at h
      · rw [if_neg hs] at h
        cases hrec : waitLoop clock score timeout conf ival (k0 + 1) fuel with
        | none =>
          rw [hrec] at h
          simp at h
        | some rt =>
          rw [hrec] at h
          obtain ⟨r, trR⟩ := rt
          simp only [Option.some.injEq, Prod.mk.injEq] at h
          obtain ⟨hr, htr⟩ := h
          subst hr
          obtain ⟨hk0, htime, hall, htrR⟩ := ih (k0 + 1) k trR hrec
          refine ⟨by omega, htime, ?_, ?_⟩
          · intro j hj1 hj2
            rcases Nat.eq_or_lt_of_le hj1 with hje | hjl
            · rw [← hje]
              exact lt_of_not_le hs
            · exact hall j hjl hj2
          · rw [← htr, htrR]
            have hk : k - k0 = (k - (k0 + 1)) + 1 := by omega
            rw [hk]
            rfl
    · rw [if_neg ht] at h
      simp only [Option.some.injEq, Prod.mk.injEq, WaitOutcome.timeoutAt.injEq] at h
      obtain ⟨hk, htr⟩ := h
      subst hk
      exact ⟨Nat.le_refl _, ht, fun j hj1 hj2 => absurd hj2 (by omega),
        by rw [← htr, Nat.sub_self]; rfl⟩

/-- C4: `wait_for_screen` fails with the asset-missing error before any
capture when the template cannot be loaded; it returns successfully on
the first poll whose match score reaches the confidence, having slept
the fixed interval (no backoff) after each of the earlier failed polls;
and it fails with Timeout only once the timeout has elapsed with no poll
reaching confidence. -/
theorem wait_for_screen_spec :
    (∀ clock score timeout conf ival fuel,
      wait_for_screen false clock score timeout conf ival fuel =
        some (WaitOutcome.fileNotFound, [])) ∧
    (∀ clock score timeout conf ival fuel k tr,
      wait_for_screen true clock score timeout conf ival fuel =
        some (WaitOutcome.matched k, tr) →
      conf ≤ score k ∧ (∀ j, j < k → score j < conf) ∧
      tr = pollTrail ival k ++ [ScreenEv.capture]) ∧
    (∀ clock score timeout conf ival fuel k tr,
      wait_for_screen true clock score timeout conf ival fuel =
        some (WaitOutcome.timeoutAt k, tr) →
      ¬ clock (k + 1) - clock 0 < timeout ∧
      (∀ j, j < k → score j < conf) ∧ tr = pollTrail ival k) := by
  refine ⟨fun _ _ _ _ _ _ => rfl, ?_, ?_⟩
  · intro clock score timeout conf ival fuel k tr h
    obtain ⟨_, hconf, hall, htr⟩ :=
      waitLoop_matched clock score timeout conf ival fuel 0 k tr h
    exact ⟨hconf, fun j hj => hall j (Nat.zero_le j) hj, by simpa using htr⟩
  · intro clock score timeout conf ival fuel k tr h
    obtain ⟨_, htime, hall, htr⟩ :=
      waitLoop_timeout clock score timeout conf ival fuel 0 k tr h
    exact ⟨htime, fun j hj => hall j (Nat.zero_le j) hj, by simpa using htr⟩

/-- Witness for C4: a clock ticking one unit per reading; the third poll
is the first to reach confidence, after two failed polls each followed by
one fixed-interval sleep; and a run whose polls never match, timing out
after the deadline passes. -/
theorem wait_for_screen_spec_witness :
    ((1 : ℚ) / 2 ≤ (if (2 : Nat) = 2 then (9 : ℚ) / 10 else 1 / 10) ∧
      (∀ j, j < 2 → (if (j : Nat) = 2 then (9 : ℚ) / 10 else 1 / 10) < 1 / 2) ∧
      ([ScreenEv.capture, ScreenEv.sleepFor (1 / 5), ScreenEv.capture,
        ScreenEv.sleepFor (1 / 5), ScreenEv.capture] : List ScreenEv) =
        pollTrail (1 / 5) 2 ++ [ScreenEv.capture]) ∧
    (¬ ((3 : ℚ) - 0 < 3) ∧
      (∀ j, j < 2 → ((1 : ℚ) / 10) < 1 / 2) ∧
      ([ScreenEv.capture, ScreenEv.sleepFor (1 / 5), ScreenEv.capture,
        ScreenEv.sleepFor (1 / 5)] : List ScreenEv) = pollTrail (1 / 5) 2) :=
  ⟨wait_for_screen_spec.2.1 (fun j => (j : ℚ))
      (fun k => if k = 2 then (9 : ℚ) / 10 else 1 / 10) 100 (1 / 2) (1 / 5)
      10 2 _ (by norm_num [wait_for_screen, waitLoop]),
   wait_for_screen_spec.2.2 (fun j => (j : ℚ)) (fun _ => (1 : ℚ) / 10) 3
      (1 / 2) (1 / 5) 10 2 _ (by norm_num [wait_for_screen, waitLoop])⟩

/-- A stabilized `stabLoop` run returned the current frame of the first
poll whose mean absolute difference against the previous frame fell
below the threshold. -/
theorem stabLoop_stable (clock : Nat → ℚ) (frames : Nat → Frame)
    (timeout thr : ℚ) :
    ∀ fuel p k fr,
      stabLoop clock frames timeout thr p fuel =
        some (StabOutcome.stable k fr) →
      p < k ∧ fr = frames k ∧
      meanAbsDiff (frames (k - 1)) (frames k) < thr ∧
      (∀ j, p ≤ j → j + 1 < k →
        ¬ meanAbsDiff (frames j) (frames (j + 1)) < thr) := by
  intro fuel
  induction fuel with
  | zero =>
    intro p k fr h
    simp [stabLoop] at h
  | succ fuel ih =>
    intro p k fr h
    simp only [stabLoop] at h
    by_cases ht : clock (p + 1) - clock 0 < timeout
    · rw [if_pos ht] at h
      by_cases hd : meanAbsDiff (frames p) (frames (p + 1)) < thr
      · rw [if_pos hd] at h
        simp only [Option.some.injEq, StabOutcome.stable.injEq] at h
        obtain ⟨hk, hfr⟩ := h
        subst hk
        refine ⟨Nat.lt_succ_of_le (Nat.le_refl p), hfr.symm, by simpa using hd,
          fun j hj1 hj2 => absurd hj2 (by omega)⟩
      · rw [if_neg hd] at h
        obtain ⟨hpk, hfr, hdk, hall⟩ := ih (p + 1) k fr h
        refine ⟨by omega, hfr, hdk, ?_⟩
        intro j hj1 hj2
        rcases Nat.eq_or_lt_of_le hj1 with hje | hjl
        · rw [← hje]
          exact hd
        · exact hall j hjl hj2
    · rw [if_neg ht] at h
      simp at h

/-- A timed-out `stabLoop` run saw the timeout elapse with every
performed poll still unstable. -/
theorem stabLoop_timeout (clock : Nat → ℚ) (frames : Nat → Frame)
    (timeout thr : ℚ) :
    ∀ fuel p q,
      stabLoop clock frames timeout thr p fuel =
        some (StabOutcome.timeoutAt q) →
      p ≤ q ∧ ¬ clock (q + 1) - clock 0 < timeout ∧
      (∀ j, p ≤ j → j < q →
        ¬ meanAbsDiff (frames j) (frames (j + 1)) < thr) := by
  intro fuel
  induction fuel with
  | zero =>
    intro p q h
    simp [stabLoop] at h
  | succ fuel ih =>
    intro p q h
    simp only [stabLoop] at h
    by_cases ht : clock (p + 1) - clock 0 < timeout
    · rw [if_pos ht] at h
      by_cases hd : meanAbsDiff (frames p) (frames (p + 1)) < thr
      · rw [if_pos hd] at h
        simp at h
      · rw [if_neg hd] at h
        obtain ⟨hpq, htime, hall⟩ := ih (p + 1) q h
        refine ⟨by omega, htime, ?_⟩
        intro j hj1 hj2
        rcases Nat.eq_or_lt_of_le hj1 with hje | hjl
        · rw [← hje]
          exact hd
        · exact hall j hjl hj2
    · rw [if_neg ht] at h
      simp only [Option.some.injEq, StabOutcome.timeoutAt.injEq] at h
      subst h
      exact ⟨Nat.le_refl _, ht, fun j hj1 hj2 => absurd hj2 (by omega)⟩

/-- C5: `wait_for_stability` captures an initial frame and returns the
current capture at the first poll whose mean absolute pixel difference
against the previous capture is below the stability threshold; with no
such poll before the timeout elapses it fails with Timeout. -/
theorem wait_for_stability_spec :
    (∀ clock frames timeout thr fuel k fr,
      wait_for_stability clock frames timeout thr fuel =
        some (StabOutcome.stable k fr) →
      1 ≤ k ∧ fr = frames k ∧ meanAbsDiff (frames (k - 1)) fr < thr ∧
      (∀ j, j + 1 < k → ¬ meanAbsDiff (frames j) (frames (j + 1)) < thr)) ∧
    (∀ clock frames timeout thr fuel q,
      wait_for_stability clock frames timeout thr fuel =
        some (StabOutcome.timeoutAt q) →
      ¬ clock (q + 1) - clock 0 < timeout ∧
      (∀ j, j < q → ¬ meanAbsDiff (frames j) (frames (j + 1)) < thr)) := by
  constructor
  · intro clock frames timeout thr fuel k fr h
    obtain ⟨hpk, hfr, hdk, hall⟩ :=
      stabLoop_stable clock frames timeout thr fuel 0 k fr h
    exact ⟨hpk, hfr, by rw [hfr]; exact hdk,
      fun j hj => hall j (Nat.zero_le j) hj⟩
  · intro clock frames timeout thr fuel q h
    obtain ⟨_, htime, hall⟩ :=
      stabLoop_timeout clock frames timeout thr fuel 0 q h
    exact ⟨htime, fun j hj => hall j (Nat.zero_le j) hj⟩

/-- Witness for C5: frames `[0], [100], [100], ...` — the first poll is
unstable (difference `100`), the second stable (difference `0`), so the
stable frame is the capture at index `2`; and a run whose deadline has
already passed at the first clock check times out at once. -/
theorem wait_for_stability_spec_witness :
    (1 ≤ 2 ∧ ([(100 : Int)] : Frame) =
        (fun j => if j = 0 then ([0] : List Int) else [100]) 2 ∧
      meanAbsDiff ((fun j => if j = 0 then ([0] : List Int) else [100]) (2 - 1))
        [(100 : Int)] < 2 ∧
      (∀ j, j + 1 < 2 →
        ¬ meanAbsDiff ((fun j => if j = 0 then ([0] : List Int) else [100]) j)
            ((fun j => if j = 0 then ([0] : List Int) else [100]) (j + 1)) < 2)) ∧
    (¬ (((0 + 1 : Nat) : ℚ)) - (((0 : Nat) : ℚ)) < 1 ∧
      (∀ j, j < 0 →
        ¬ meanAbsDiff ((fun _ => ([0] : List Int)) j)
            ((fun _ => ([0] : List Int)) (j + 1)) < 2)) :=
  ⟨wait_for_stability_spec.1 (fun j => (j : ℚ))
      (fun j => if j = 0 then ([0] : List Int) else [100]) 100 2 10 2
      [(100 : Int)]
      (by norm_num [wait_for_stability, stabLoop, meanAbsDiff, sumAbsDiff]),
   wait_for_stability_spec.2 (fun j => (j : ℚ))
      (fun _ => ([0] : List Int)) 1 2 10 0
      (by norm_num [wait_for_stability, stabLoop])⟩

/-- `bestOf` only ever selects a roster entry. -/
theorem bestOf_mem (score : String → String → ℚ) (ocrName : String) :
    ∀ (members : List String) m s,
      bestOf score ocrName members = some (m, s) → m ∈ members := by
  intro members
  induction members with
  | nil =>
    intro m s h
    simp [bestOf] at h
  | cons x xs ih =>
    intro m s h
    simp only [bestOf] at h
    split at h
    · simp only [Option.some.injEq, Prod.mk.injEq] at h
      simp [h.1]
    · split at h
      · simp only [Option.some.injEq, Prod.mk.injEq] at h
        rename_i bm bs heq _
        exact List.mem_cons_of_mem x (ih m s (by rw [heq, h.1, h.2]))
      · simp only [Option.some.injEq, Prod.mk.injEq] at h
        simp [h.1]

/-- A resolved canonical name is always a roster entry. -/
theorem match_player_name_mem (score : String → String → ℚ) (thr : ℚ)
    (ocrName : String) (members : List String) (m : String) :
    match_player_name score thr ocrName members = some m → m ∈ members := by
  intro h
  unfold match_player_name at h
  split at h
  · simp at h
  · split at h
    · simp only [Option.some.injEq] at h
      rename_i bm bs heq _
      exact h ▸ bestOf_mem score ocrName members bm bs heq
    · simp at h

/-- A present key stays present (with the same value) under appending. -/
theorem lookupV_append_some {V : Type} (nm : String) :
    ∀ (l l2 : List (String × V)) v,
      lookupV nm l = some v → lookupV nm (l ++ l2) = some v := by
  intro l
  induction l with
  | nil =>
    intro l2 v h
    simp [lookupV] at h
  | cons p rest ih =>
    intro l2 v h
    obtain ⟨k, w⟩ := p
    by_cases hk : k = nm
    · simp only [lookupV, if_pos hk] at h
      simp [lookupV, hk, h]
    · simp only [lookupV, if_neg hk] at h
      simpa [lookupV, hk] using ih l2 v h

/-- Absent keys are exactly those not among the map's keys. -/
theorem lookupV_none_iff {V : Type} (nm : String) :
    ∀ l : List (String × V),
      lookupV nm l = none ↔ nm ∉ l.map Prod.fst := by
  intro l
  induction l with
  | nil => simp [lookupV]
  | cons p rest ih =>
    obtain ⟨k, w⟩ := p
    by_cases hk : k = nm
    · simp [lookupV, hk]
    · simp only [lookupV, if_neg hk, List.map_cons, List.mem_cons]
      rw [ih]
      constructor
      · intro h hc
        rcases hc with he | hm2
        · exact hk he.symm
        · exact h hm2
      · intro h hm2
        exact h (Or.inr hm2)

/-- `processCard` preserves the result-map invariant. -/
theorem processCard_good {V : Type} (score : String → String → ℚ)
    (thr : ℚ) (members : List String) (st : CollectSt V) (c : CardRead V) :
    goodRes members st.result →
    goodRes members (processCard score thr members st c).result := by
  intro hg
  cases c with
  | ocrFail => simpa [processCard] using hg
  | parseFail => simpa [processCard] using hg
  | parsed raw v =>
    simp only [processCard]
    cases hm : match_player_name score thr raw members with
    | none => simpa using hg
    | some name =>
      cases hl : lookupV name st.result with
      | some w => simpa [hm, hl] using hg
      | none =>
        simp only [hm, hl]
        have hnotin : name ∉ st.result.map Prod.fst :=
          (lookupV_none_iff name st.result).mp hl
        have hmem : name ∈ members :=
          match_player_name_mem score thr raw members name hm
        refine ⟨?_, ?_⟩
        · simpa [List.nodup_append, hnotin] using hg.1
        · intro k hk
          simp only [List.map_append] at hk
          rcases List.mem_append.mp hk with hk1 | hk2
          · exact hg.2 k hk1
          · simp only [List.map_cons, List.map_nil, List.mem_singleton] at hk2
            rw [hk2]
            exact hmem

/-- `processCard` never overwrites a name already present. -/
theorem processCard_preserve {V : Type} (score : String → String → ℚ)
    (thr : ℚ) (members : List String) (st : CollectSt V) (c : CardRead V)
    (nm : String) (v : V) :
    lookupV nm st.result = some v →
    lookupV nm (processCard score thr members st c).result = some v := by
  intro h
  cases c with
  | ocrFail => simpa [processCard] using h
  | parseFail => simpa [processCard] using h
  | parsed raw w =>
    simp only [processCard]
    cases hm : match_player_name score thr raw members with
    | none => simpa using h
    | some name =>
      cases hl : lookupV name st.result with
      | some u => simpa [hm, hl] using h
      | none =>
        simp only [hm, hl]
        exact lookupV_append_some nm st.result [(name, w)] v h

/-- Folding `processCard` over a card list preserves the invariant. -/
theorem foldl_processCard_good {V : Type} (score : String → String → ℚ)
    (thr : ℚ) (members : List String) :
    ∀ (cards : List (CardRead V)) (st : CollectSt V),
      goodRes members st.result →
      goodRes members (cards.foldl (processCard score thr members) st).result := by
  intro cards
  induction cards with
  | nil =>
    intro st hg
    simpa using hg
  | cons c rest ih =>
    intro st hg
    exact ih (processCard score thr members st c)
      (processCard_good score thr members st c hg)

/-- Folding `processCard` over a card list preserves present entries. -/
theorem foldl_processCard_preserve {V : Type} (score : String → String → ℚ)
    (thr : ℚ) (members : List String) (nm : String) (v : V) :
    ∀ (cards : List (CardRead V)) (st : CollectSt V),
      lookupV nm st.result = some v →
      lookupV nm (cards.foldl (processCard score thr members) st).result = some v := by
  intro cards
  induction cards with
  | nil =>
    intro st h
    simpa using h
  | cons c rest ih =>
    intro st h
    exact ih (processCard score thr members st c)
      (processCard_preserve score thr members st c nm v h)

/-- One collection step preserves the result-map invariant. -/
theorem processStep_good {V : Type} (score : String → String → ℚ)
    (thr : ℚ) (members : List String) (res : List (String × V)) (sk : Nat)
    (cards : List (CardRead V)) :
    goodRes members res →
    goodRes members (processStep score thr members res sk cards).result :=
  fun hg => foldl_processCard_good score thr members cards ⟨res, sk, 0⟩ hg

/-- One collection step never overwrites a present entry. -/
theorem processStep_preserve {V : Type} (score : String → String → ℚ)
    (thr : ℚ) (members : List String) (res : List (String × V)) (sk : Nat)
    (cards : List (CardRead V)) (nm : String) (v : V) :
    lookupV nm res = some v →
    lookupV nm (processStep score thr members res sk cards).result = some v :=
  fun h => foldl_processCard_preserve score thr members nm v cards ⟨res, sk, 0⟩ h

/-- The scroll loop preserves the result-map invariant. -/
theorem collectLoop_good {V : Type} (score : String → String → ℚ)
    (thr : ℚ) (members : List String)
    (steps : Nat → Except StepErr (List (CardRead V))) :
    ∀ fuel (res : List (String × V)) sk i res2 sk2,
      goodRes members res →
      collectLoop score thr members steps res sk i fuel =
        Except.ok (res2, sk2) →
      goodRes members res2 := by
  intro fuel
  induction fuel with
  | zero =>
    intro res sk i res2 sk2 hg h
    simp only [collectLoop, Except.ok.injEq, Prod.mk.injEq] at h
    rw [← h.1]
    exact hg
  | succ fuel ih =>
    intro res sk i res2 sk2 hg h
    simp only [collectLoop] at h
    split at h
    · exact absurd h (by simp)
    · split at h
      · simp only [Except.ok.injEq, Prod.mk.injEq] at h
        rw [← h.1]
        exact processStep_good score thr members res sk _ hg
      · split at h
        · simp only [Except.ok.injEq, Prod.mk.injEq] at h
          rw [← h.1]
          exact processStep_good score thr members res sk _ hg
        · exact ih _ _ _ res2 sk2
            (processStep_good score thr members res sk _ hg) h

/-- The scroll loop never overwrites a present entry. -/
theorem collectLoop_preserve {V : Type} (score : String → String → ℚ)
    (thr : ℚ) (members : List String)
    (steps : Nat → Except StepErr (List (CardRead V))) (nm : String) (v : V) :
    ∀ fuel (res : List (String × V)) sk i res2 sk2,
      lookupV nm res = some v →
      collectLoop score thr members steps res sk i fuel =
        Except.ok (res2, sk2) →
      lookupV nm res2 = some v := by
  intro fuel
  induction fuel with
  | zero =>
    intro res sk i res2 sk2 hv h
    simp only [collectLoop, Except.ok.injEq, Prod.mk.injEq] at h
    rw [← h.1]
    exact hv
  | succ fuel ih =>
    intro res sk i res2 sk2 hv h
    simp only [collectLoop] at h
    split at h
    · exact absurd h (by simp)
    · split at h
      · simp only [Except.ok.injEq, Prod.mk.injEq] at h
        rw [← h.1]
        exact processStep_preserve score thr members res sk _ nm v hv
      · split at h
        · simp only [Except.ok.injEq, Prod.mk.injEq] at h
          rw [← h.1]
          exact processStep_preserve score thr members res sk _ nm v hv
        · exact ih _ _ _ res2 sk2
            (processStep_preserve score thr members res sk _ nm v hv) h

/-- A result map satisfying the invariant is no larger than the roster. -/
theorem goodRes_length_le {V : Type} (members : List String)
    (res : List (String × V)) :
    goodRes members res → res.length ≤ members.length := by
  intro hg
  have hsp : List.Subperm (res.map Prod.fst) members :=
    hg.1.subperm (fun k hk => hg.2 k hk)
  have hlen := hsp.length_le
  simpa using hlen

/-- C1: for every mode and roster, a completed `scroll_and_collect` maps
only canonical roster names, with pairwise-distinct keys, to values; its
size never exceeds the roster size; and it is built first-occurrence-wins:
an entry present in the running result is never overwritten by any later
step of the scroll loop. -/
theorem scroll_and_collect_invariants :
    (∀ (V : Type) score thr (members : List String)
        (steps : Nat → Except StepErr (List (CardRead V))) cap res sk,
      scroll_and_collect score thr members steps cap = Except.ok (res, sk) →
      (∀ p ∈ res, p.1 ∈ members) ∧ (res.map Prod.fst).Nodup ∧
      res.length ≤ members.length) ∧
    (∀ (V : Type) score thr (members : List String)
        (steps : Nat → Except StepErr (List (CardRead V)))
        res sk i fuel nm (v : V) res2 sk2,
      lookupV nm res = some v →
      collectLoop score thr members steps res sk i fuel =
        Except.ok (res2, sk2) →
      lookupV nm res2 = some v) := by
  constructor
  · intro V score thr members steps cap res sk h
    have hg : goodRes members res :=
      collectLoop_good score thr members steps cap [] 0 0 res sk
        ⟨List.nodup_nil, by simp⟩ h
    refine ⟨?_, hg.1, goodRes_length_le members res hg⟩
    intro p hp
    exact hg.2 p.1 (List.mem_map_of_mem Prod.fst hp)
  · intro V score thr members steps res sk i fuel nm v res2 sk2 hv h
    exact collectLoop_preserve score thr members steps nm v fuel
      res sk i res2 sk2 hv h

/-- `processCard` commutes with shifting the skip counter: the result map
and the new-names counter do not depend on the counter. -/
theorem processCard_shift {V : Type} (score : String → String → ℚ)
    (thr : ℚ) (members : List String) (d : Nat) (st : CollectSt V)
    (c : CardRead V) :
    processCard score thr members (shiftSkip d st) c =
      shiftSkip d (processCard score thr members st c) := by
  obtain ⟨r, sk, n⟩ := st
  cases c with
  | ocrFail =>
    simp only [processCard, shiftSkip]
    simp [Nat.add_right_comm]
  | parseFail =>
    simp only [processCard, shiftSkip]
    simp [Nat.add_right_comm]
  | parsed raw v =>
    simp only [processCard, shiftSkip]
    cases hm : match_player_name score thr raw members with
    | none => simp [Nat.add_right_comm]
    | some name =>
      cases hl : lookupV name r with
      | some u => simp [hl]
      | none => simp [hl]

/-- Folding cards commutes with shifting the skip counter. -/
theorem foldl_processCard_shift {V : Type} (score : String → String → ℚ)
    (thr : ℚ) (members : List String) (d : Nat) :
    ∀ (cards : List (CardRead V)) (st : CollectSt V),
      cards.foldl (processCard score thr members) (shiftSkip d st) =
        shiftSkip d (cards.foldl (processCard score thr members) st) := by
  intro cards
  induction cards with
  | nil =>
    intro st
    simp
  | cons c rest ih =>
    intro st
    simp only [List.foldl_cons]
    rw [processCard_shift score thr members d st c]
    exact ih (processCard score thr members st c)

/-- A malformed or unmatched card only bumps the skip counter. -/
theorem processCard_bad {V : Type} (score : String → String → ℚ)
    (thr : ℚ) (members : List String) (st : CollectSt V) (c : CardRead V) :
    badCard score thr members c = true →
    processCard score thr members st c = shiftSkip 1 st := by
  intro hb
  cases c with
  | ocrFail => rfl
  | parseFail => rfl
  | parsed raw v =>
    simp only [badCard, Option.isNone_iff_eq_none] at hb
    simp [processCard, hb, shiftSkip]

/-- The scroll loop is total over card-level failures: with every step's
stabilize-and-detect succeeding, the loop returns a result. -/
theorem collectLoop_total {V : Type} (score : String → String → ℚ)
    (thr : ℚ) (members : List String)
    (steps : Nat → Except StepErr (List (CardRead V)))
    (hok : ∀ i, ∃ l, steps i = Except.ok l) :
    ∀ fuel (res : List (String × V)) sk i,
      ∃ r, collectLoop score thr members steps res sk i fuel = Except.ok r := by
  intro fuel
  induction fuel with
  | zero =>
    intro res sk i
    exact ⟨(res, sk), rfl⟩
  | succ fuel ih =>
    intro res sk i
    obtain ⟨l, hl⟩ := hok i
    simp only [collectLoop, hl]
    split
    · exact ⟨_, rfl⟩
    · split
      · exact ⟨_, rfl⟩
      · exact ih _ _ _

/-- C2: inside `scroll_and_collect`, a card whose field fails extraction
or parsing, or whose recognized name matches no roster entry, is skipped
and counted for diagnostics: removing it from a step changes nothing but
the skip counter, and with every step's stabilize-and-detect succeeding
the collection always completes — no `OCRConfidence` or `ParseError`
escapes a malformed card. -/
theorem scroll_and_collect_skips_bad_cards :
    (∀ (V : Type) score thr (members : List String)
        (res : List (String × V)) sk (pre post : List (CardRead V))
        (bad : CardRead V),
      badCard score thr members bad = true →
      processStep score thr members res sk (pre ++ bad :: post) =
        shiftSkip 1 (processStep score thr members res sk (pre ++ post))) ∧
    (∀ (V : Type) score thr (members : List String)
        (steps : Nat → Except StepErr (List (CardRead V))) cap,
      (∀ i, ∃ l, steps i = Except.ok l) →
      ∃ r, scroll_and_collect score thr members steps cap = Except.ok r) := by
  constructor
  · intro V score thr members res sk pre post bad hb
    simp only [processStep, List.foldl_append, List.foldl_cons]
    rw [processCard_bad score thr members _ bad hb]
    exact foldl_processCard_shift score thr members 1 post _
  · intro V score thr members steps cap hok
    exact collectLoop_total score thr members steps hok cap [] 0 0

/-- Witness for C1: a two-member roster collected over two scroll steps
with one skipped card and one duplicate sighting; the result maps exactly
the roster names, and the loop never overwrites the entry present for
"alice". -/
theorem scroll_and_collect_invariants_witness :
    ((∀ p ∈ ([("alice", 5), ("bob", 9)] : List (String × Nat)),
        p.1 ∈ ["alice", "bob"]) ∧
      (([("alice", 5), ("bob", 9)] : List (String × Nat)).map Prod.fst).Nodup ∧
      ([("alice", 5), ("bob", 9)] : List (String × Nat)).length ≤
        (["alice", "bob"] : List String).length) ∧
    lookupV "alice" ([("alice", 5), ("bob", 9)] : List (String × Nat)) =
      some 5 :=
  ⟨scroll_and_collect_invariants.1 Nat
      (fun a b => if a = b then (1 : ℚ) else 0) 1 ["alice", "bob"]
      (fun i => Except.ok (if i = 0 then
        [CardRead.parsed "alice" 5, CardRead.ocrFail, CardRead.parsed "alice" 7]
        else [CardRead.parsed "bob" 9])) 5 [("alice", 5), ("bob", 9)] 1
      (by decide),
   scroll_and_collect_invariants.2 Nat
      (fun a b => if a = b then (1 : ℚ) else 0) 1 ["alice", "bob"]
      (fun _ => Except.ok [CardRead.parsed "bob" 9])
      [("alice", 5)] 1 1 4 "alice" 5 [("alice", 5), ("bob", 9)] 1 rfl
      (by decide)⟩

/-- Witness for C2: a step containing one failed-extraction card produces
the same result map as without it with the skip counter one higher, and a
collection whose steps all detect successfully completes. -/
theorem scroll_and_collect_skips_bad_cards_witness :
    processStep (fun a b => if a = b then (1 : ℚ) else 0) 1 ["alice"]
      ([] : List (String × Nat)) 0
      ([CardRead.parsed "alice" 3] ++ CardRead.ocrFail :: []) =
      shiftSkip 1 (processStep (fun a b => if a = b then (1 : ℚ) else 0) 1
        ["alice"] [] 0 ([CardRead.parsed "alice" 3] ++ [])) ∧
    ∃ r, scroll_and_collect (V := Nat)
      (fun a b => if a = b then (1 : ℚ) else 0) 1 ["alice"]
      (fun _ => Except.ok []) 3 = Except.ok r :=
  ⟨scroll_and_collect_skips_bad_cards.1 Nat
      (fun a b => if a = b then (1 : ℚ) else 0) 1 ["alice"] [] 0
      [CardRead.parsed "alice" 3] [] CardRead.ocrFail rfl,
   scroll_and_collect_skips_bad_cards.2 Nat
      (fun a b => if a = b then (1 : ℚ) else 0) 1 ["alice"]
      (fun _ => Except.ok []) 3 (fun _ => ⟨[], rfl⟩)⟩

/-- Witness for C9: the documented clustering example, whose successful
result is a nonempty two-position list. -/
theorem detect_cards_spec_witness :
    ([12, 203] : List Nat) ≠ [] :=
  detect_cards_spec.2.2 [10, 12, 15, 200, 205] 30 [12, 203] rfl

end AFKJ
